import Mathlib

/-!
Shallow embedding of the record-normalization logic of
`materials_aggregator.py` (class `MaterialsResearchAggregator`).

The embedded pieces are:
* the per-record nested-property flattening loop of `compare_materials`
  (lines 169-183 of the source), exposed both as `flattenRecord` (the body
  run on one record) and as `normalize` (the loop over a list of already
  fetched records followed by `pd.DataFrame(data)`);
* `compare_materials` itself, parameterised by the external query client;
* the result slicing of `search_materials` (lines 89-100), with Python's
  slice semantics for a possibly negative `num_results`;
* the column-level flattening of `find_stable_materials` (lines 217-230),
  including the `spacegroup.symbol` special case and pandas cell semantics.

Python dictionaries are modelled as association lists with unique-key
update-in-place semantics (`Dict.set` overwrites the first occurrence of an
existing key and appends a new key at the end, exactly as CPython dicts
preserve insertion order).  `pd.DataFrame(data)` on a list of dicts is
modelled by `pdDataFrame`: the column list is the first-seen-order union of
the record keys, and a cell holds the record's value at the column, a null
(pandas `NaN`) standing in where the record lacks the key.
-/

namespace MaterialsAggregator

/-- A JSON-like value stored in a raw record: Python `None`, a number, a
string, a boolean, or a nested dictionary. -/
inductive Value where
  | null : Value
  | int : Int → Value
  | str : String → Value
  | bool : Bool → Value
  | dict : List (String × Value) → Value

/-- A raw result record from the query client: a Python dict from field
name to value, modelled as an insertion-ordered association list. -/
abbrev RawRecord := List (String × Value)

namespace Dict

/-- `d[k]` / `k in d`: first (and for a real dict, only) binding of `k`. -/
def lookup : RawRecord → String → Option Value
  | [], _ => none
  | (k', v) :: rest, k => if k' = k then some v else lookup rest k

/-- `d[k] = v`: overwrite the binding in place if `k` is present, append
`(k, v)` at the end otherwise — CPython's insertion-order semantics. -/
def set : RawRecord → String → Value → RawRecord
  | [], k, v => [(k, v)]
  | (k', v') :: rest, k, v =>
    if k' = k then (k', v) :: rest else (k', v') :: set rest k v

/-- The keys of the record, in insertion order. -/
def keys (d : RawRecord) : List String := d.map Prod.fst

end Dict

/-- `chars.index('.')` splitting: `none` when no dot occurs, otherwise the
characters before the first dot and the characters after it. -/
def splitDotAux : List Char → Option (List Char × List Char)
  | [] => none
  | c :: cs =>
    if c = '.' then some ([], cs)
    else
      match splitDotAux cs with
      | none => none
      | some (l, r) => some (c :: l, r)

/-- Python `("." in s, s.split(".", 1))`: `none` when `s` has no dot,
otherwise the part before the first dot and everything after it. -/
def splitDot (s : String) : Option (String × String) :=
  match splitDotAux s.data with
  | none => none
  | some (l, r) => some (String.mk l, String.mk r)

/-- One iteration of the `# Handle nested properties` loop of
`compare_materials`: when `prop` contains a dot and the base key is present
and holds a dict, store `material_data[base].get(nested)` under the full
dotted name (`.get` returns `None`, i.e. `Value.null`, when the nested key
is absent); otherwise leave the record as it is. -/
def flattenStep (md : RawRecord) (prop : String) : RawRecord :=
  match splitDot prop with
  | none => md
  | some (base, nested) =>
    match Dict.lookup md base with
    | some (Value.dict d) =>
      Dict.set md prop ((Dict.lookup d nested).getD Value.null)
    | _ => md

/-- The `# Handle nested properties` loop of `compare_materials` (source
lines 174-179) run on one record `material_data`.  The returned record is
the final state of the (mutated in place) input dict. -/
def flattenRecord (properties : List String) (material_data : RawRecord) : RawRecord :=
  properties.foldl flattenStep material_data

/-- Accumulate into `cols` the members of `ks` not already present,
preserving first-seen order — how `pd.DataFrame` unions dict keys. -/
def addCols (cols : List String) (ks : List String) : List String :=
  ks.foldl (fun acc k => if acc.contains k then acc else acc ++ [k]) cols

/-- The column list `pd.DataFrame(data).columns` for a list of dicts:
first-seen-order union of the records' keys. -/
def dfColumns (data : List RawRecord) : List String :=
  data.foldl (fun cols rec => addCols cols (Dict.keys rec)) []

/-- A pandas `DataFrame` built from a list of dicts: the shared column
list plus one underlying dict per row (a row's missing keys read as the
null sentinel `NaN` through `dfCell`). -/
structure DataFrame where
  columns : List String
  rows : List RawRecord

/-- `pd.DataFrame(data)` on a list of dicts. -/
def pdDataFrame (data : List RawRecord) : DataFrame :=
  ⟨dfColumns data, data⟩

/-- Read the cell at row `i`, column `c`: `none` when the column does not
exist in the frame or the row index is out of range; otherwise the row's
value at `c`, with `Value.null` (pandas `NaN`) where the row's dict lacks
the key. -/
def dfCell (df : DataFrame) (i : Nat) (c : String) : Option Value :=
  if df.columns.contains c then
    match df.rows[i]? with
    | some r => some ((Dict.lookup r c).getD Value.null)
    | none => none
  else none

/-- The spec's exposed operation `normalize(records, fields)`, as the code
implements it: run `compare_materials`' flattening loop over each already
fetched record and build `pd.DataFrame(data)` from the results. -/
def normalize (records : List RawRecord) (fields : List String) : DataFrame :=
  pdDataFrame (records.map (flattenRecord fields))

/-- Exceptions the embedded code can raise.  `indexOutOfRange` is Python's
`IndexError` (from `[0]` on an empty list or `.iloc[0]` on an empty
column), `keyError` is `df[col]` on a missing column, `attributeError` is
`.get` called on a non-dict, and `invalidArgument` is the error kind the
spec's taxonomy prescribes for an empty field list (no code path raises
it). -/
inductive PyError where
  | indexOutOfRange : PyError
  | keyError : PyError
  | attributeError : PyError
  | invalidArgument : PyError
deriving DecidableEq

/-- The default `properties` list of `compare_materials` (source lines
157-167), used when the caller passes `None`. -/
def compare_default_properties : List String :=
  ["material_id", "formula", "formation_energy_per_atom", "energy_above_hull",
   "band_gap", "density", "elasticity.K_VRH", "elasticity.G_VRH"]

/-- The `for mid in material_ids` loop of `compare_materials` building the
`data` list: for each id the code takes element `[0]` of the list the
client returns — an `IndexError` when the client returns no record — then
runs the nested-property flattening on that record and appends it. -/
def compare_loop (query : String → List RawRecord) (properties : List String) :
    List String → Except PyError (List RawRecord)
  | [] => Except.ok []
  | mid :: rest =>
    match query mid with
    | [] => Except.error PyError.indexOutOfRange
    | r :: _ =>
      match compare_loop query properties rest with
      | Except.error e => Except.error e
      | Except.ok data => Except.ok (flattenRecord properties r :: data)

/-- `compare_materials(material_ids, properties)` (source lines 169-183),
parameterised by the external query client `query` (the black-box
`self.mpr.query({"material_id": mid}, properties)` call): run the loop,
then build `pd.DataFrame(data)`. -/
def compare_materials (query : String → List RawRecord)
    (material_ids : List String) (properties : List String) :
    Except PyError DataFrame :=
  match compare_loop query properties material_ids with
  | Except.error e => Except.error e
  | Except.ok data => Except.ok (pdDataFrame data)

/-- Python's `lst[:n]` for an `int` bound `n`: the first `n` elements when
`n ≥ 0` (all of them when `n` exceeds the length), and all but the last
`-n` elements when `n` is negative. -/
def pySliceTo (n : Int) (l : List RawRecord) : List RawRecord :=
  if 0 ≤ n then l.take n.toNat else l.take (l.length - (-n).toNat)

/-- `search_materials` after the client call (source lines 89-100): the
client's documents are converted to dicts, truncated by
`[...][:num_results]`, and handed to `pd.DataFrame`. -/
def search_materials (docs : List RawRecord) (num_results : Int) : DataFrame :=
  pdDataFrame (pySliceTo num_results docs)

/-- Python truthiness of a stored value: `None`, `0`, the empty string and
the empty dict are falsy, everything else truthy. -/
def pyTruthy : Value → Bool
  | Value.null => false
  | Value.int n => n != 0
  | Value.str s => s != ""
  | Value.bool b => b
  | Value.dict d => !d.isEmpty

/-- The lambda `lambda x: x.get(nested) if x else None` that
`find_stable_materials` applies over a column, fed the row's cell
(`none` when the row's dict lacks the key: pandas then supplies a float
`NaN`, which is truthy and has no `.get`, so the call raises
`AttributeError`).  A falsy cell gives `None`; a truthy dict gives
`x.get(nested)`; any other truthy value raises `AttributeError`. -/
def applyGetNested (nested : String) (cell : Option Value) : Except PyError Value :=
  match cell with
  | none => Except.error PyError.attributeError
  | some v =>
    if pyTruthy v then
      match v with
      | Value.dict d => Except.ok ((Dict.lookup d nested).getD Value.null)
      | _ => Except.error PyError.attributeError
    else Except.ok Value.null

/-- `df[col] = vals`: overwrite the cell at `col` in every row (the column
already exists whenever the embedded code calls this). -/
def dfSetCol (df : DataFrame) (col : String) (vals : List Value) : DataFrame :=
  ⟨df.columns, (df.rows.zip vals).map (fun p => Dict.set p.1 col p.2)⟩

/-- The `# Handle nested properties` block of `find_stable_materials`
(source lines 220-229) run on the frame built from the query results:
first the `spacegroup.symbol` special case — when that column exists the
code reads `df["spacegroup"]`, a `KeyError` when no such column exists —
then, for every dotted column whose base column exists and whose first
row holds a dict, the base column is mapped through
`lambda x: x.get(nested) if x else None`. -/
def find_stable_flatten (df0 : DataFrame) : Except PyError DataFrame := do
  let df ←
    if df0.columns.contains "spacegroup.symbol" then
      if df0.columns.contains "spacegroup" then do
        let vals ← df0.rows.mapM
          (fun r => applyGetNested "symbol" (Dict.lookup r "spacegroup"))
        Except.ok (dfSetCol df0 "spacegroup" vals)
      else Except.error PyError.keyError
    else Except.ok df0
  df.columns.foldlM
    (fun acc col =>
      match splitDot col with
      | none => Except.ok acc
      | some (base, nested) =>
        if acc.columns.contains base then
          match acc.rows[0]? with
          | none => Except.error PyError.indexOutOfRange
          | some r0 =>
            match Dict.lookup r0 base with
            | some (Value.dict _) => do
              let vals ← acc.rows.mapM
                (fun r => applyGetNested nested (Dict.lookup r base))
              Except.ok (dfSetCol acc col vals)
            | _ => Except.ok acc
        else Except.ok acc)
    df

/-- `find_stable_materials` after the client call (source lines 217-230):
`pd.DataFrame(results)` followed by the column-level nested-property
handling. -/
def find_stable_materials (results : List RawRecord) : Except PyError DataFrame :=
  find_stable_flatten (pdDataFrame results)

/-! ## Auxiliary lemmas about the embedded operations -/

namespace Dict

theorem lookup_set_self (d : RawRecord) (k : String) (v : Value) :
    lookup (set d k v) k = some v := by
  induction d with
  | nil => simp [set, lookup]
  | cons p rest ih =>
    obtain ⟨k', v'⟩ := p
    by_cases h : k' = k
    · simp [set, h, lookup]
    · simp [set, h, lookup, ih]

theorem lookup_set_ne (d : RawRecord) (k k' : String) (v : Value) (h : k' ≠ k) :
    lookup (set d k v) k' = lookup d k' := by
  have hkk : ¬k = k' := fun hh => h hh.symm
  induction d with
  | nil => simp [set, lookup, hkk]
  | cons p rest ih =>
    obtain ⟨k0, v0⟩ := p
    by_cases h0 : k0 = k
    · subst h0
      simp [set, lookup, hkk]
    · by_cases h1 : k0 = k'
      · subst h1
        simp [set, lookup, h0]
      · simp [set, lookup, h0, h1, ih]

theorem mem_keys_set_self (d : RawRecord) (k : String) (v : Value) :
    k ∈ keys (set d k v) := by
  induction d with
  | nil => simp [set, keys]
  | cons p rest ih =>
    obtain ⟨k0, v0⟩ := p
    by_cases h0 : k0 = k
    · simp [set, h0, keys]
    · simpa [set, h0, keys] using Or.inr ih

end Dict

theorem splitDotAux_dot_mem :
    ∀ (cs : List Char) (p : List Char × List Char), splitDotAux cs = some p → '.' ∈ cs := by
  intro cs
  induction cs with
  | nil => intro p h; simp [splitDotAux] at h
  | cons c rest ih =>
    intro p h
    by_cases hc : c = '.'
    · simp [hc]
    · simp only [splitDotAux, if_neg hc] at h
      cases hr : splitDotAux rest with
      | none => rw [hr] at h; simp at h
      | some q => exact List.mem_cons_of_mem c (ih q hr)

theorem splitDot_dot_mem (s : String) (p : String × String) (h : splitDot s = some p) :
    '.' ∈ s.data := by
  unfold splitDot at h
  cases hr : splitDotAux s.data with
  | none => rw [hr] at h; simp at h
  | some q => exact splitDotAux_dot_mem _ q hr

theorem flattenRecord_nil (rec : RawRecord) : flattenRecord [] rec = rec := rfl

theorem flattenRecord_cons (f : String) (fs : List String) (rec : RawRecord) :
    flattenRecord (f :: fs) rec = flattenRecord fs (flattenStep rec f) := rfl

theorem flattenStep_eq (rec : RawRecord) (f base nested : String)
    (hsplit : splitDot f = some (base, nested)) :
    flattenStep rec f =
      match Dict.lookup rec base with
      | some (Value.dict d) => Dict.set rec f ((Dict.lookup d nested).getD Value.null)
      | _ => rec := by
  unfold flattenStep
  rw [hsplit]

theorem flattenRecord_single (rec : RawRecord) (f base nested : String)
    (hsplit : splitDot f = some (base, nested)) :
    flattenRecord [f] rec =
      match Dict.lookup rec base with
      | some (Value.dict d) => Dict.set rec f ((Dict.lookup d nested).getD Value.null)
      | _ => rec := by
  rw [flattenRecord_cons, flattenRecord_nil, flattenStep_eq rec f base nested hsplit]

theorem lookup_flattenStep_no_dot (rec : RawRecord) (f k : String) (h : '.' ∉ k.data) :
    Dict.lookup (flattenStep rec f) k = Dict.lookup rec k := by
  cases hs : splitDot f with
  | none => unfold flattenStep; rw [hs]
  | some p =>
    obtain ⟨base, nested⟩ := p
    rw [flattenStep_eq rec f base nested hs]
    cases hb : Dict.lookup rec base with
    | none => rfl
    | some v =>
      cases v
      case dict d =>
        apply Dict.lookup_set_ne
        intro hk
        exact h (hk ▸ splitDot_dot_mem f (base, nested) hs)
      all_goals rfl

theorem lookup_flattenRecord_no_dot (fields : List String) (rec : RawRecord) (k : String)
    (h : '.' ∉ k.data) :
    Dict.lookup (flattenRecord fields rec) k = Dict.lookup rec k := by
  induction fields generalizing rec with
  | nil => rfl
  | cons f fs ih =>
    rw [flattenRecord_cons, ih (flattenStep rec f), lookup_flattenStep_no_dot rec f k h]

theorem mem_addCols (cols ks : List String) (c : String) :
    c ∈ addCols cols ks ↔ c ∈ cols ∨ c ∈ ks := by
  induction ks generalizing cols with
  | nil => simp [addCols]
  | cons k kt ih =>
    show c ∈ addCols (if cols.contains k then cols else cols ++ [k]) kt ↔ _
    rw [ih]
    by_cases hk : cols.contains k
    · have hkm : k ∈ cols := List.elem_iff.mp hk
      rw [if_pos hk]
      simp only [List.mem_cons]
      constructor
      · rintro (h1 | h2)
        · exact Or.inl h1
        · exact Or.inr (Or.inr h2)
      · rintro (h1 | h2 | h3)
        · exact Or.inl h1
        · exact Or.inl (h2 ▸ hkm)
        · exact Or.inr h3
    · rw [if_neg hk]
      simp only [List.mem_append, List.mem_singleton, List.mem_cons]
      tauto

theorem nodup_addCols (cols ks : List String) (h : cols.Nodup) : (addCols cols ks).Nodup := by
  induction ks generalizing cols with
  | nil => exact h
  | cons k kt ih =>
    show (addCols (if cols.contains k then cols else cols ++ [k]) kt).Nodup
    by_cases hk : cols.contains k
    · rw [if_pos hk]; exact ih cols h
    · rw [if_neg hk]
      apply ih
      have hkm : k ∉ cols := fun hm => hk (List.elem_iff.mpr hm)
      simp [List.nodup_append, h, hkm]

theorem mem_dfColumns_aux (data : List RawRecord) :
    ∀ (init : List String) (c : String),
      c ∈ data.foldl (fun cols rec => addCols cols (Dict.keys rec)) init ↔
        c ∈ init ∨ ∃ r ∈ data, c ∈ Dict.keys r := by
  induction data with
  | nil => intro init c; simp
  | cons rec rest ih =>
    intro init c
    show c ∈ rest.foldl _ (addCols init (Dict.keys rec)) ↔ _
    rw [ih, mem_addCols]
    simp only [List.mem_cons]
    constructor
    · rintro ((h1 | h2) | ⟨r, hr, hc⟩)
      · exact Or.inl h1
      · exact Or.inr ⟨rec, Or.inl rfl, h2⟩
      · exact Or.inr ⟨r, Or.inr hr, hc⟩
    · rintro (h1 | ⟨r, hr | hr, hc⟩)
      · exact Or.inl (Or.inl h1)
      · exact Or.inl (Or.inr (hr ▸ hc))
      · exact Or.inr ⟨r, hr, hc⟩

theorem mem_dfColumns (data : List RawRecord) (c : String) :
    c ∈ dfColumns data ↔ ∃ r ∈ data, c ∈ Dict.keys r := by
  unfold dfColumns
  rw [mem_dfColumns_aux]
  simp

theorem nodup_dfColumns (data : List RawRecord) : (dfColumns data).Nodup := by
  unfold dfColumns
  generalize hinit : ([] : List String) = init
  have hn : init.Nodup := hinit ▸ List.nodup_nil
  clear hinit
  induction data generalizing init with
  | nil => exact hn
  | cons rec rest ih => exact ih _ (nodup_addCols _ _ hn)

theorem dfCell_pdDataFrame_single (rec : RawRecord) (c : String) (hc : c ∈ Dict.keys rec) :
    dfCell (pdDataFrame [rec]) 0 c = some ((Dict.lookup rec c).getD Value.null) := by
  unfold dfCell pdDataFrame
  have hcc : (dfColumns [rec]).contains c = true :=
    List.elem_iff.mpr ((mem_dfColumns [rec] c).mpr ⟨rec, by simp, hc⟩)
  rw [if_pos hcc]
  rfl

theorem dfCell_normalize_single (rec : RawRecord) (f base nested : String)
    (d : List (String × Value)) (v : Value)
    (hsplit : splitDot f = some (base, nested))
    (hbase : Dict.lookup rec base = some (Value.dict d))
    (hnested : Dict.lookup d nested = some v) :
    dfCell (normalize [rec] [f]) 0 f = some v := by
  have hf : flattenRecord [f] rec = Dict.set rec f v := by
    rw [flattenRecord_single rec f base nested hsplit, hbase]
    show Dict.set rec f ((Dict.lookup d nested).getD Value.null) = Dict.set rec f v
    rw [hnested]
    rfl
  show dfCell (pdDataFrame [flattenRecord [f] rec]) 0 f = some v
  rw [hf, dfCell_pdDataFrame_single _ _ (Dict.mem_keys_set_self rec f v),
    Dict.lookup_set_self]
  rfl

theorem compare_loop_head_congr (q1 q2 : String → List RawRecord) (props : List String)
    (h : ∀ mid, (q1 mid).head? = (q2 mid).head?) :
    ∀ ids, compare_loop q1 props ids = compare_loop q2 props ids := by
  intro ids
  induction ids with
  | nil => rfl
  | cons mid rest ih =>
    have hm := h mid
    cases hq1 : q1 mid with
    | nil =>
      cases hq2 : q2 mid with
      | nil => simp [compare_loop, hq1, hq2]
      | cons b t2 => rw [hq1, hq2] at hm; simp at hm
    | cons a t =>
      cases hq2 : q2 mid with
      | nil => rw [hq1, hq2] at hm; simp at hm
      | cons b t2 =>
        rw [hq1, hq2] at hm
        simp only [List.head?_cons, Option.some.injEq] at hm
        simp [compare_loop, hq1, hq2, hm, ih]

/-! ## Claim theorems -/

/-- C1, counterexample: the claim says dotted resolution never raises and an
absent base key yields null, for every RawRecord.  In
`find_stable_materials`, a record carrying the literal dotted column
`"spacegroup.symbol"` with no `"spacegroup"` base key makes the code read
`df["spacegroup"]`, which raises a `KeyError` rather than producing null. -/
theorem c1_counterexample :
    find_stable_materials [[("spacegroup.symbol", Value.str "Pm-3m")]] =
      Except.error PyError.keyError := rfl

/-- C1, amended: record-level dotted resolution (`compare_materials`) never
raises, and the value stored under the dotted name is: the base mapping's
entry at the nested key (null when that entry is absent) whenever the base
key holds a mapping, and the record's unchanged entry at the dotted name —
typically absent, hence no materialized column, rather than null — whenever
the base key is absent or holds a non-mapping.  The column-level variant in
`find_stable_materials` can raise instead (see the counterexample). -/
theorem c1_dotted_resolution (rec : RawRecord) (f base nested : String)
    (hsplit : splitDot f = some (base, nested)) :
    Dict.lookup (flattenRecord [f] rec) f =
      match Dict.lookup rec base with
      | some (Value.dict d) => some ((Dict.lookup d nested).getD Value.null)
      | _ => Dict.lookup rec f := by
  rw [flattenRecord_single rec f base nested hsplit]
  cases hb : Dict.lookup rec base with
  | none => rfl
  | some v =>
    cases v
    case dict d => exact Dict.lookup_set_self rec f _
    all_goals rfl

/-- C1, witness: the spec's own example — the empty record and field
`"elasticity.K_VRH"` — leaves the dotted key absent (no failure). -/
theorem c1_witness :
    Dict.lookup (flattenRecord ["elasticity.K_VRH"] []) "elasticity.K_VRH" = none := by
  have h := c1_dotted_resolution [] "elasticity.K_VRH" "elasticity" "K_VRH" (by decide)
  exact h

/-- C2: when the base key holds a mapping containing the nested key, the
output cell under the original dotted column name is exactly the stored
value. -/
theorem c2_dotted_lookup (rec : RawRecord) (f base nested : String)
    (d : List (String × Value)) (v : Value)
    (hsplit : splitDot f = some (base, nested))
    (hbase : Dict.lookup rec base = some (Value.dict d))
    (hnested : Dict.lookup d nested = some v) :
    dfCell (normalize [rec] [f]) 0 f = some v :=
  dfCell_normalize_single rec f base nested d v hsplit hbase hnested

/-- C2, witness: the spec's example — record
`{"elasticity": {"K_VRH": 120}}` and field `"elasticity.K_VRH"` give 120
under column `"elasticity.K_VRH"`. -/
theorem c2_witness :
    dfCell (normalize [[("elasticity", Value.dict [("K_VRH", Value.int 120)])]]
        ["elasticity.K_VRH"]) 0 "elasticity.K_VRH" = some (Value.int 120) :=
  c2_dotted_lookup [("elasticity", Value.dict [("K_VRH", Value.int 120)])]
    "elasticity.K_VRH" "elasticity" "K_VRH" [("K_VRH", Value.int 120)] (Value.int 120)
    (by decide) rfl rfl

/-- C3, counterexample: with record `{"bulk_modulus": 150}`, requesting
`"elasticity.K_VRH"` does not yield 150 — the code consults no alias
table, so the cell is not even materialized (the lookup gives `none`,
not `some 150`). -/
theorem c3_counterexample :
    ¬ dfCell (normalize [[("bulk_modulus", Value.int 150)]] ["elasticity.K_VRH"]) 0
        "elasticity.K_VRH" = some (Value.int 150) :=
  fun h => nomatch h

/-- C3, amended: there is no alias fallback anywhere in the code — a record
whose `"elasticity"` key is absent is returned unchanged whatever flat keys
(such as `"bulk_modulus"`) it carries, and only the dotted resolution
applies: a record `{"elasticity": {"K_VRH": v}}` yields `v`. -/
theorem c3_no_alias_fallback :
    (∀ rec : RawRecord, Dict.lookup rec "elasticity" = none →
        normalize [rec] ["elasticity.K_VRH"] = pdDataFrame [rec]) ∧
    (∀ (rec : RawRecord) (d : List (String × Value)) (v : Value),
        Dict.lookup rec "elasticity" = some (Value.dict d) →
        Dict.lookup d "K_VRH" = some v →
        dfCell (normalize [rec] ["elasticity.K_VRH"]) 0 "elasticity.K_VRH" = some v) := by
  constructor
  · intro rec hnone
    show pdDataFrame [flattenRecord ["elasticity.K_VRH"] rec] = pdDataFrame [rec]
    rw [flattenRecord_single rec "elasticity.K_VRH" "elasticity" "K_VRH" (by decide), hnone]
  · intro rec d v hbase hnested
    exact dfCell_normalize_single rec "elasticity.K_VRH" "elasticity" "K_VRH" d v
      (by decide) hbase hnested

/-- C3, witness: the spec's two examples — `{"bulk_modulus": 150}` passes
through untouched, and `{"elasticity": {"K_VRH": 90}}` yields 90 by dotted
resolution. -/
theorem c3_witness :
    normalize [[("bulk_modulus", Value.int 150)]] ["elasticity.K_VRH"] =
        pdDataFrame [[("bulk_modulus", Value.int 150)]] ∧
    dfCell (normalize [[("elasticity", Value.dict [("K_VRH", Value.int 90)])]]
        ["elasticity.K_VRH"]) 0 "elasticity.K_VRH" = some (Value.int 90) :=
  ⟨c3_no_alias_fallback.1 [("bulk_modulus", Value.int 150)] rfl,
   c3_no_alias_fallback.2 [("elasticity", Value.dict [("K_VRH", Value.int 90)])]
     [("K_VRH", Value.int 90)] (Value.int 90) rfl rfl⟩

/-- C4: normalization produces exactly one row per input record. -/
theorem c4_row_count (records : List RawRecord) (fields : List String)
    (_hf : fields ≠ []) :
    (normalize records fields).rows.length = records.length := by
  show (records.map (flattenRecord fields)).length = records.length
  simp

/-- C4, witness: one record and one requested field give one row. -/
theorem c4_witness :
    (normalize [[("a", Value.int 1)]] ["band_gap"]).rows.length = 1 :=
  c4_row_count [[("a", Value.int 1)]] ["band_gap"] (by simp)

/-- C5, counterexample: with record `{"elasticity": {"K_VRH": 120}}` and
requested fields `["elasticity.K_VRH"]`, the output column list is
`["elasticity", "elasticity.K_VRH"]` — the unrequested raw base key
survives as a column — so it is not the requested field list. -/
theorem c5_counterexample :
    (normalize [[("elasticity", Value.dict [("K_VRH", Value.int 120)])]]
        ["elasticity.K_VRH"]).columns ≠ ["elasticity.K_VRH"] := by
  decide

/-- C5, amended: the shared column list is the first-seen-order union of
the flattened records' keys — duplicate-free, and a name is a column
exactly when some flattened record carries it.  It is not the requested
FieldSpec list: unrequested raw keys appear and requested fields missing
from every record are absent. -/
theorem c5_columns (records : List RawRecord) (fields : List String) :
    (normalize records fields).columns.Nodup ∧
    ∀ c : String, c ∈ (normalize records fields).columns ↔
      ∃ r ∈ records, c ∈ Dict.keys (flattenRecord fields r) := by
  constructor
  · exact nodup_dfColumns (records.map (flattenRecord fields))
  · intro c
    show c ∈ dfColumns (records.map (flattenRecord fields)) ↔ _
    rw [mem_dfColumns]
    constructor
    · rintro ⟨r, hr, hc⟩
      obtain ⟨r0, hr0, rfl⟩ := List.mem_map.mp hr
      exact ⟨r0, hr0, hc⟩
    · rintro ⟨r0, hr0, hc⟩
      exact ⟨flattenRecord fields r0, List.mem_map.mpr ⟨r0, hr0, rfl⟩, hc⟩

/-- C5, witness: on the counterexample input, the column list is
duplicate-free and the unrequested base key `"elasticity"` is a column. -/
theorem c5_witness :
    (normalize [[("elasticity", Value.dict [("K_VRH", Value.int 120)])]]
        ["elasticity.K_VRH"]).columns.Nodup ∧
    "elasticity" ∈ (normalize [[("elasticity", Value.dict [("K_VRH", Value.int 120)])]]
        ["elasticity.K_VRH"]).columns :=
  ⟨(c5_columns [[("elasticity", Value.dict [("K_VRH", Value.int 120)])]]
      ["elasticity.K_VRH"]).1,
   ((c5_columns [[("elasticity", Value.dict [("K_VRH", Value.int 120)])]]
      ["elasticity.K_VRH"]).2 "elasticity").mpr
     ⟨[("elasticity", Value.dict [("K_VRH", Value.int 120)])], by simp, by decide⟩⟩

/-- C6, counterexample: an empty field list is not rejected — with one
fetched record, `compare_materials` returns a table (and in particular not
an `InvalidArgument` failure). -/
theorem c6_counterexample :
    compare_materials (fun _ => [[("a", Value.int 1)]]) ["mp-1"] [] =
        Except.ok (pdDataFrame [[("a", Value.int 1)]]) ∧
    compare_materials (fun _ => [[("a", Value.int 1)]]) ["mp-1"] [] ≠
        Except.error PyError.invalidArgument :=
  ⟨rfl, fun h => nomatch h⟩

/-- C6, amended: an empty field list is accepted: no flattening happens and
the table of the fetched records is returned unchanged. -/
theorem c6_empty_fields_accepted (records : List RawRecord) :
    normalize records [] = pdDataFrame records := by
  have h : records.map (flattenRecord []) = records := by
    induction records with
    | nil => rfl
    | cons r rest ih => simp [flattenRecord_nil, ih]
  show pdDataFrame (records.map (flattenRecord [])) = pdDataFrame records
  rw [h]

/-- C6, witness: with one fetched record, normalization with an empty field
list returns the frame of that record unchanged. -/
theorem c6_witness :
    normalize [[("a", Value.int 1)]] [] = pdDataFrame [[("a", Value.int 1)]] :=
  c6_empty_fields_accepted [[("a", Value.int 1)]]

/-- C7, counterexample: `normalize([], ["band_gap"])` has zero rows and
does not raise, but its column list is empty, not `["band_gap"]`. -/
theorem c7_counterexample :
    (normalize [] ["band_gap"]).rows = [] ∧
    (normalize [] ["band_gap"]).columns ≠ ["band_gap"] :=
  ⟨rfl, by decide⟩

/-- C7, amended: an empty record list yields a table with zero rows and an
empty column list — the requested columns are not materialized — and
`find_stable_materials` likewise returns the empty frame without raising. -/
theorem c7_empty_records (fields : List String) :
    normalize [] fields = DataFrame.mk [] [] ∧
    find_stable_materials [] = Except.ok (DataFrame.mk [] []) :=
  ⟨rfl, rfl⟩

/-- C7, witness: requesting `["band_gap"]` over no records gives the empty
frame, and so does the stable-materials path. -/
theorem c7_witness :
    normalize [] ["band_gap"] = DataFrame.mk [] [] ∧
    find_stable_materials [] = Except.ok (DataFrame.mk [] []) :=
  c7_empty_records ["band_gap"]

/-- C8, counterexample: normalization does not leave its input records
unchanged — resolving `"elasticity.K_VRH"` on
`{"elasticity": {"K_VRH": 120}}` adds the dotted key to the record dict in
place, so the row list is not the input list. -/
theorem c8_counterexample :
    (normalize [[("elasticity", Value.dict [("K_VRH", Value.int 120)])]]
        ["elasticity.K_VRH"]).rows ≠
      [[("elasticity", Value.dict [("K_VRH", Value.int 120)])]] :=
  fun h => absurd (congrArg (List.map Dict.keys) h) (by decide)

/-- C8, amended: normalization mutates each input record in place, but only
at dotted key names: the entry at any key containing no dot is left
unchanged, and the output is a deterministic function of the inputs. -/
theorem c8_frame (fields : List String) (rec : RawRecord) (k : String)
    (h : '.' ∉ k.data) :
    Dict.lookup (flattenRecord fields rec) k = Dict.lookup rec k :=
  lookup_flattenRecord_no_dot fields rec k h

/-- C8, witness: flattening `"elasticity.K_VRH"` leaves the undotted
`"band_gap"` entry of the record unchanged. -/
theorem c8_witness :
    Dict.lookup (flattenRecord ["elasticity.K_VRH"]
        [("elasticity", Value.dict [("K_VRH", Value.int 120)]),
         ("band_gap", Value.int 2)]) "band_gap" =
      Dict.lookup [("elasticity", Value.dict [("K_VRH", Value.int 120)]),
         ("band_gap", Value.int 2)] "band_gap" :=
  c8_frame ["elasticity.K_VRH"]
    [("elasticity", Value.dict [("K_VRH", Value.int 120)]), ("band_gap", Value.int 2)]
    "band_gap" (by decide)

/-- C9, counterexample: the claim quantifies over every `num_results`, but
Python slicing makes a negative limit drop elements from the end instead:
`search_materials` with no documents and `num_results = -1` returns 0 rows,
and 0 is not at most -1. -/
theorem c9_counterexample :
    ¬ (((search_materials [] (-1)).rows.length : Int) ≤ -1) := by decide

/-- C9, amended: for every non-negative `num_results`, `search_materials`
returns at most `num_results` rows, and whenever the client returns at
least `num_results` documents it returns exactly the first `num_results`
of them, in order. -/
theorem c9_truncation (docs : List RawRecord) (n : Int) (hn : 0 ≤ n) :
    ((search_materials docs n).rows.length : Int) ≤ n ∧
    (n ≤ (docs.length : Int) → (search_materials docs n).rows = docs.take n.toNat) := by
  have hrows : (search_materials docs n).rows = docs.take n.toNat := by
    show pySliceTo n docs = docs.take n.toNat
    unfold pySliceTo
    rw [if_pos hn]
  constructor
  · rw [hrows]
    have h1 : (docs.take n.toNat).length ≤ n.toNat := by
      rw [List.length_take]
      exact min_le_left _ _
    calc ((docs.take n.toNat).length : Int) ≤ (n.toNat : Int) := by exact_mod_cast h1
      _ = n := Int.toNat_of_nonneg hn
  · intro _
    exact hrows

/-- C9, witness: two documents and `num_results = 1` give one row — the
first document. -/
theorem c9_witness :
    ((search_materials [[("a", Value.int 1)], [("b", Value.int 2)]] 1).rows.length : Int) ≤ 1 ∧
    (search_materials [[("a", Value.int 1)], [("b", Value.int 2)]] 1).rows =
      [[("a", Value.int 1)], [("b", Value.int 2)]].take (1 : Int).toNat :=
  ⟨(c9_truncation [[("a", Value.int 1)], [("b", Value.int 2)]] 1 (by decide)).1,
   (c9_truncation [[("a", Value.int 1)], [("b", Value.int 2)]] 1 (by decide)).2 (by decide)⟩

/-- C10: `compare_materials` depends only on the first record the client
returns for each id — two clients agreeing on heads give equal results —
and a material id for which the client returns an empty sequence raises an
index-out-of-range failure instead of producing a null-filled row. -/
theorem c10_first_record_only :
    (∀ (q1 q2 : String → List RawRecord) (ids props : List String),
        (∀ mid, (q1 mid).head? = (q2 mid).head?) →
        compare_materials q1 ids props = compare_materials q2 ids props) ∧
    compare_materials (fun _ => []) ["mp-1"] compare_default_properties =
      Except.error PyError.indexOutOfRange := by
  constructor
  · intro q1 q2 ids props h
    unfold compare_materials
    rw [compare_loop_head_congr q1 q2 props h ids]
  · rfl

/-- C10, witness: a client returning one record and a client returning that
record plus a second one produce the same comparison table, and the empty
client raises the index failure. -/
theorem c10_witness :
    compare_materials (fun _ => [[("a", Value.int 1)]]) ["m"] [] =
        compare_materials (fun _ => [[("a", Value.int 1)], [("b", Value.int 2)]]) ["m"] [] ∧
    compare_materials (fun _ => []) ["mp-1"] compare_default_properties =
      Except.error PyError.indexOutOfRange :=
  ⟨c10_first_record_only.1 (fun _ => [[("a", Value.int 1)]])
      (fun _ => [[("a", Value.int 1)], [("b", Value.int 2)]]) ["m"] [] (fun _ => rfl),
   c10_first_record_only.2⟩

end MaterialsAggregator
